import Mathlib

/-!
Verification of the memory-allocator core of this repository (a Go runtime:
malloc.go, msize.go, mcentral.go).  The Go code is shallowly embedded:
pure functions become Lean functions on `Nat` (the Go integers involved are
non-negative in every reachable state; where uintptr wrap-around matters it
is modelled explicitly with `% 2^64`), loops become fuel-indexed structural
recursions (the fuel is always sufficient, see the comments at each loop),
and fallible operations return `Option` / carry the unchanged state.
-/

namespace ReadGo

set_option maxRecDepth 40000


/-! ## Constants (malloc.go) -/

def _PageShift : Nat := 13
def _PageSize : Nat := 1 <<< _PageShift
def _PageMask : Nat := _PageSize - 1
def _NumSizeClasses : Nat := 67
def _MaxSmallSize : Nat := 32 <<< 10
def _TinySize : Nat := 16
def _TinySizeClass : Nat := 2
def maxTinySize : Nat := _TinySize
def tinySizeClass : Nat := _TinySizeClass
def maxSmallSize : Nat := _MaxSmallSize

/-- _MHeapMap_TotalBits is 39 on a 64-bit non-windows, non-darwin/arm64 system;
_MaxMem = 1<<39 - 1 (512GB - 1). -/
def _MaxMem : Nat := (1 <<< 39) - 1

/-! ## Size classes (msize.go: initSizes, sizeToClass)

initSizes chooses the class sizes with three nested loops; each loop is
embedded as a structural recursion on an explicit fuel argument.  The fuel
bounds are generous: the outer loop steps `size` by at least 8 up to 32768
(at most 4096 iterations), the allocsize loop stops as soon as
allocsize/8 ≥ size, i.e. after at most 8*32768/8192 = 32 additions of a
page, and the table-filling loops write at most 129 resp. 249 entries. -/

/-- Inner loop of initSizes: grow allocsize in page increments until the
leftover after chopping into `size`-byte objects is at most 1/8 of the run. -/
def allocSizeLoop : Nat → Nat → Nat → Nat
  | 0, allocsize, _ => allocsize
  | fuel+1, allocsize, size =>
    if allocsize % size > allocsize / 8 then allocSizeLoop fuel (allocsize + _PageSize) size
    else allocsize

/-- Alignment bump performed at each power-of-two size boundary
(initSizes, lines 691-699 of msize.go). -/
def bumpAlign (size align : Nat) : Nat :=
  if size &&& (size - 1) == 0 then
    if size ≥ 2048 then 256
    else if size ≥ 128 then size / 8
    else if size ≥ 16 then 16
    else align
  else align

/-- Main loop of initSizes choosing the class sizes.  The per-class results
are accumulated in reverse order (head = most recently created class), so
that the merge step (overwrite the previous class with the current, larger
size when allocation page count and object count coincide) is a head update.
Returns (class sizes reversed, alloc page counts reversed, next class id). -/
def initSizesLoop : Nat → Nat → Nat → Nat → List Nat → List Nat → (List Nat × List Nat × Nat)
  | 0, _, _, sc, cts, ctn => (cts, ctn, sc)
  | fuel+1, size, align, sc, cts, ctn =>
    if size > _MaxSmallSize then (cts, ctn, sc)
    else
      let align' := bumpAlign size align
      let allocsize := allocSizeLoop 64 _PageSize size
      let npages := allocsize >>> _PageShift
      if sc > 1 && npages == ctn.headD 0 && allocsize / size == allocsize / (cts.headD 1) then
        initSizesLoop fuel (size + align') align' sc (size :: cts.tail) ctn
      else
        initSizesLoop fuel (size + align') align' (sc+1) (size :: cts) (npages :: ctn)

/-- Result of the class-choosing phase of initSizes, started like the source:
class 0 is reserved ("not small"), sizeclass = 1, align = 8, size = align. -/
def initSizesResult : List Nat × List Nat × Nat := initSizesLoop 8192 8 8 1 [0] [0]

/-- class_to_size[i] = largest size in class i (index 0..66). -/
def class_to_size : List Nat := initSizesResult.1.reverse

/-- class_to_allocnpages[i] = number of pages allocated at a time for class i. -/
def class_to_allocnpages : List Nat := initSizesResult.2.1.reverse

/-- Number of classes produced by the loop; initSizes throws unless it
equals _NumSizeClasses. -/
def producedSizeClasses : Nat := initSizesResult.2.2

/-- Inner loop filling size_to_class8: while nextsize < 1024 and
nextsize ≤ class size, record the class at index nextsize/8.  The indexes
written are consecutive, so the table is accumulated by consing (reversed). -/
def fill8Loop : Nat → Nat → Nat → Nat → List Nat → (Nat × List Nat)
  | 0, nextsize, _, _, t8 => (nextsize, t8)
  | fuel+1, nextsize, sc, csize, t8 =>
    if nextsize < 1024 && nextsize ≤ csize then
      fill8Loop fuel (nextsize + 8) sc csize (sc :: t8)
    else (nextsize, t8)

/-- Inner loop filling size_to_class128: while nextsize ≤ class size, record
the class at index (nextsize-1024)/128; indexes are consecutive again. -/
def fill128Loop : Nat → Nat → Nat → Nat → List Nat → (Nat × List Nat)
  | 0, nextsize, _, _, t => (nextsize, t)
  | fuel+1, nextsize, sc, csize, t =>
    if nextsize ≤ csize then
      fill128Loop fuel (nextsize + 128) sc csize (sc :: t)
    else (nextsize, t)

/-- Outer loop of the size_to_class table initialization (initSizes,
lines 736-746 of msize.go), over sizeclass = 1..66. -/
def fillTablesLoop : Nat → Nat → Nat → List Nat → List Nat → (List Nat × List Nat)
  | 0, _, _, t8, t128 => (t8, t128)
  | fuel+1, sc, nextsize, t8, t128 =>
    if sc ≥ _NumSizeClasses then (t8, t128)
    else
      let csize := class_to_size.getD sc 0
      let (nextsize, t8) := fill8Loop 200 nextsize sc csize t8
      let (nextsize, t128) :=
        if nextsize ≥ 1024 then fill128Loop 300 nextsize sc csize t128
        else (nextsize, t128)
      fillTablesLoop fuel (sc+1) nextsize t8 t128

def fillTablesResult : List Nat × List Nat := fillTablesLoop 67 1 0 [] []

/-- Lookup table of length 129 for sizes ≤ 1024, indexed by size/8 rounded up.
The loop never writes index 128 (it stops at nextsize = 1016), so that entry
keeps the Go array's zero value. -/
def size_to_class8 : List Nat := fillTablesResult.1.reverse ++ [0]

/-- Lookup table of length 249 for sizes in (1016, 32768], indexed by
(size-1024)/128 rounded up. -/
def size_to_class128 : List Nat := fillTablesResult.2.reverse

/-- sizeToClass (msize.go lines 666-674).  The source throws when
size > _MaxSmallSize; that fatal path is modelled as `none`.  In the branch
taken for size > 1024-8 the source computes (size-1024+127)>>7 in int32
arithmetic; since size ≥ 1017 there, it equals the Nat value
(size + 127 - 1024) >>> 7 used here (no truncation: size + 127 ≥ 1144). -/
def sizeToClass (size : Nat) : Option Nat :=
  if size > _MaxSmallSize then none
  else if size > 1024 - 8 then some (size_to_class128.getD ((size + 127 - 1024) >>> 7) 0)
  else some (size_to_class8.getD ((size + 7) >>> 3) 0)

/-! ## Helper notions used to state the claims about the table -/

/-- Ceiling division. -/
def divRoundUp (a b : Nat) : Nat := (a + b - 1) / b

/-- Granularity of the size→class lookup at size s, as the claim words it:
8 bytes for sizes ≤ 1024, 128 bytes for larger small sizes. -/
def lookupGranularity (s : Nat) : Nat := if s ≤ 1024 then 8 else 128

/-- ceil(s * num/den) rounded up to the lookup granularity at s. -/
def wasteBound (num den s : Nat) : Nat :=
  divRoundUp (divRoundUp (s * num) den) (lookupGranularity s) * lookupGranularity s

/-- Decidable sequential check of a Boolean predicate on [lo, lo+n). -/
def seqCheck : Nat → Nat → (Nat → Bool) → Bool
  | 0, _, _ => true
  | k+1, lo, p => p lo && seqCheck k (lo+1) p

/-- Per-index check covering C1 for sizes s ∈ [8j-7, 8j], j = 1..127:
the class size covers the largest size of the block and respects the
(amended, 3/2) waste bound at the smallest size of the block. -/
def checkC1small (j : Nat) : Bool :=
  let c := size_to_class8.getD j 0
  let cs := class_to_size.getD c 0
  decide (8 * j ≤ cs) && decide (cs ≤ wasteBound 3 2 (8 * j - 7))

/-- Smallest size mapped to index j of size_to_class128 (j = 0 covers
(1016, 1024], j ≥ 1 covers [897+128j, 1024+128j]). -/
def blockMin128 (j : Nat) : Nat := if j = 0 then 1017 else 897 + 128 * j

/-- Per-index check covering C1 for the 128-granularity range, j = 0..248. -/
def checkC1large (j : Nat) : Bool :=
  let c := size_to_class128.getD j 0
  let cs := class_to_size.getD c 0
  decide (1024 + 128 * j ≤ cs) && decide (cs ≤ wasteBound 3 2 (blockMin128 j))

/-- Per-class check for C2: classifying a class's own size returns the class. -/
def checkC2 (c : Nat) : Bool :=
  decide (sizeToClass (class_to_size.getD c 0) = some c)


/-! ## Division magic (msize.go: computeDivMagic) -/

/-- divMagic holds the constants implementing division by a class size as
shift, multiply, shift (msize.go lines 801-806). -/
structure divMagic where
  shift : Nat
  mul : Nat
  shift2 : Nat
  baseMask : Nat
deriving DecidableEq

/-- First loop of computeDivMagic: factor the powers of two out of d.
Returns (number of factors, remaining odd part).  Fuel 32 suffices for any
uint32 argument. -/
def oddPartLoop : Nat → Nat → (Nat × Nat)
  | 0, d => (0, d)
  | fuel+1, d =>
    if d &&& 1 == 0 then
      let sd := oddPartLoop fuel (d >>> 1)
      (sd.1 + 1, sd.2)
    else (0, d)

/-- Second loop of computeDivMagic: largest k such that ceil(2^k / d64)
fits in 32 bits, starting the search at k = 63.  Fuel 64 suffices. -/
def magicKLoop : Nat → Nat → Nat → Nat
  | 0, k, _ => k
  | fuel+1, k, d64 =>
    if ((1 <<< k) + d64 - 1) / d64 ≥ 1 <<< 32 then magicKLoop fuel (k - 1) d64
    else k

/-- computeDivMagic (msize.go lines 808-838).  baseMask is the uintptr
complement of d-1, i.e. 2^64 - d for d ≥ 1, when d is a power of two. -/
def computeDivMagic (d : Nat) : divMagic :=
  let baseMask := if d &&& (d - 1) == 0 then 2 ^ 64 - d else 0
  let sd := oddPartLoop 32 d
  let k := magicKLoop 64 63 sd.2
  { shift := sd.1
    mul := ((1 <<< k) + sd.2 - 1) / sd.2
    shift2 := k
    baseMask := baseMask }

/-- Side conditions validating the magic constants of class c, checked per
class and then fed to the general multiply-shift division lemma: the
factorization d = 2^shift * dodd, the bounds pinning mul = ceil(2^shift2 /
dodd), the range condition making the approximation exact for every
span-internal offset below the class's page-run capacity, and the base
mask for power-of-two sizes. -/
def checkDivMagic (c : Nat) : Bool :=
  let d := class_to_size.getD c 0
  let m := computeDivMagic d
  let dodd := d >>> m.shift
  let cap := class_to_allocnpages.getD c 0 * _PageSize
  decide (0 < dodd) &&
  decide (d = 2 ^ m.shift * dodd) &&
  decide (2 ^ m.shift2 ≤ m.mul * dodd) &&
  decide (m.mul * dodd < 2 ^ m.shift2 + dodd) &&
  decide (((cap - 1) >>> m.shift) * (m.mul * dodd - 2 ^ m.shift2) < 2 ^ m.shift2) &&
  (if d &&& (d - 1) == 0 then decide (m.baseMask = 2 ^ 64 - d ∧ dodd = 1 ∧ m.shift ≤ 64)
   else decide (m.baseMask = 0)) &&
  decide (0 < cap) && decide (cap < 2 ^ 64)

/-! ## mallocgc (malloc.go): zero-size, tiny, small and large paths -/

/-- Pointer values returned by the allocator: the shared zerobase sentinel
(address of the zerobase global) or an ordinary memory address. -/
inductive Ptr where
  | zerobase
  | mem (addr : Nat)
deriving DecidableEq

/-- Per-thread cache state: the parts of mcache that mallocgc reads and
writes.  alloc models the freelist of the span cached for each class
(addresses of free slots); freshCtr is the source of the distinct slot
addresses handed out by refills; popCount counts, per class, the slots
taken from the normal allocation path (instrumentation used to state the
tiny-packing claim, not part of the Go state and never read by the code). -/
structure mcacheState where
  tiny : Option Nat
  tinyoffset : Nat
  local_tinyallocs : Nat
  local_cachealloc : Nat
  alloc : Nat → List Nat
  freshCtr : Nat
  popCount : Nat → Nat

/-- Pointwise update of a function. -/
def updF {α : Type} (f : Nat → α) (i : Nat) (v : α) : Nat → α :=
  fun j => if j = i then v else f j

/-- round, from the runtime support code (not under src/): rounds n up to a
multiple of the power of two a (source: (n + a - 1) &^ (a - 1)). -/
def round (n a : Nat) : Nat := (n + a - 1) / a * a

/-- Alignment of the tiny offset performed by mallocgc (lines 520-529): the
offset is aligned to 8, 4 or 2 bytes according to the low bits of size. -/
def tinyAlignedOff (tinyoffset size : Nat) : Nat :=
  if size &&& 7 == 0 then round tinyoffset 8
  else if size &&& 3 == 0 then round tinyoffset 4
  else if size &&& 1 == 0 then round tinyoffset 2
  else tinyoffset

/-- Pop the head of the cached span's freelist for class sizeclass
(v := s.freelist; s.freelist = v.ptr().next; s.ref++).  On an empty
freelist mallocgc calls mCache_Refill (not under src/) and retries, which
is then guaranteed to succeed; the refill is modelled from the spec: it
installs a replenished span whose slots are fresh addresses. -/
def popSlot (st : mcacheState) (sizeclass : Nat) : Nat × mcacheState :=
  match st.alloc sizeclass with
  | v :: rest =>
      (v, { st with alloc := updF st.alloc sizeclass rest,
                    popCount := updF st.popCount sizeclass (st.popCount sizeclass + 1) })
  | [] =>
      (16 * st.freshCtr,
       { st with freshCtr := st.freshCtr + 1,
                 popCount := updF st.popCount sizeclass (st.popCount sizeclass + 1) })

/-- New-tiny-block branch of mallocgc (lines 540-568): take a fresh
16-byte-class slot from the normal path, zero it, and install it as the new
tiny block exactly when size < c.tinyoffset; then account maxTinySize bytes
to local_cachealloc. -/
def mallocTinyNewBlock (size : Nat) (st : mcacheState) : Option Ptr × mcacheState :=
  let vst := popSlot st tinySizeClass
  let x := vst.1
  let st1 := vst.2
  let st2 :=
    if size < st1.tinyoffset then { st1 with tiny := some x, tinyoffset := size } else st1
  (some (Ptr.mem x), { st2 with local_cachealloc := st2.local_cachealloc + maxTinySize })

/-- Inline small-size classification on mallocgc's small path (malloc.go
lines 572-578), factored into a named function.  As in sizeToClass, the
int32 expression (size-1024+127)>>7 is written (size + 127 - 1024) >>> 7,
equal to it whenever this branch is taken (size ≥ 1017). -/
def mallocSizeclass (size : Nat) : Nat :=
  if size ≤ 1024 - 8 then size_to_class8.getD ((size + 7) >>> 3) 0
  else size_to_class128.getD ((size + 127 - 1024) >>> 7) 0

/-- Span descriptor for the large-object path: start page number, page
count and byte limit. -/
structure mspanLarge where
  start : Nat
  npages : Nat
  limit : Nat
deriving DecidableEq

/-- largeAlloc (malloc.go lines 689-713).  size is a uintptr; the guard
size+_PageSize < size is the 64-bit wrap-around test, and the fatal throw
is modelled as none.  mHeap_Alloc is not under src/; modelled from the
spec: PageHeap.AllocSpan returns a span with the requested page count at
some page startPage (an OutOfMemory abort yields no span, so only the
success case produces a value). -/
def largeAlloc (size : Nat) (startPage : Nat) : Option mspanLarge :=
  if (size + _PageSize) % 2 ^ 64 < size then none
  else
    let npages0 := size >>> _PageShift
    let npages := if size &&& _PageMask != 0 then npages0 + 1 else npages0
    some { start := startPage
           npages := npages
           limit := (startPage <<< _PageShift) + size }

/-- mallocgc (malloc.go lines 462-686), restricted to the allocation paths;
the GC bookkeeping, profiling and publication-barrier code after the
allocation has no effect on the returned pointer or on the cache fields
modelled here.  The flag argument is reduced to noscan (flagNoScan);
zeroing is not observable in this model.  startPage parametrizes the page
at which the heap places a large span.  Returns (pointer, cache state);
a fatal throw is modelled as a none pointer with the state unchanged. -/
def mallocgc (size : Nat) (noscan : Bool) (startPage : Nat) (st : mcacheState) :
    Option Ptr × mcacheState :=
  if size = 0 then (some Ptr.zerobase, st)
  else if size ≤ maxSmallSize then
    if noscan && size < maxTinySize then
      let off := tinyAlignedOff st.tinyoffset size
      if off + size ≤ maxTinySize ∧ st.tiny ≠ none then
        (some (Ptr.mem (st.tiny.getD 0 + off)),
         { st with tinyoffset := off + size,
                   local_tinyallocs := st.local_tinyallocs + 1 })
      else mallocTinyNewBlock size st
    else
      let sizeclass := mallocSizeclass size
      let rounded := class_to_size.getD sizeclass 0
      let vst := popSlot st sizeclass
      (some (Ptr.mem vst.1),
       { vst.2 with local_cachealloc := vst.2.local_cachealloc + rounded })
  else
    match largeAlloc size startPage with
    | none => (none, st)
    | some s => (some (Ptr.mem (s.start <<< _PageShift)), st)

/-- newarray (malloc.go lines 730-739): implementation of make for slices.
elemSize models typ.size; n is the uintptr element count, and int(n) < 0
means n ≥ 2^63.  The panic is modelled as none with the state unchanged. -/
def newarray (elemSize n : Nat) (noscan : Bool) (startPage : Nat) (st : mcacheState) :
    Option Ptr × mcacheState :=
  if 2 ^ 63 ≤ n ∨ (0 < elemSize ∧ n > _MaxMem / elemSize) then (none, st)
  else mallocgc (elemSize * n % 2 ^ 64) noscan startPage st

/-- Fold a sequence of pointer-free (noscan) allocations through mallocgc
on one thread, keeping the cache state. -/
def allocSeq (sizes : List Nat) (st : mcacheState) : mcacheState :=
  sizes.foldl (fun s sz => (mallocgc sz true 0 s).2) st

/-- Cache state produced by allocmcache (not under src/): the mcache struct
is memclr'ed there, so every field starts at the Go zero value (tiny = nil,
tinyoffset = 0, empty freelists). -/
def initialMCache : mcacheState :=
  { tiny := none, tinyoffset := 0, local_tinyallocs := 0, local_cachealloc := 0,
    alloc := fun _ => [], freshCtr := 0, popCount := fun _ => 0 }

/-! ## Central free lists (mcentral.go) and span-container exclusivity -/

/-- Per-span data read and written by the central-list operations: sweepgen,
ref (live object count), whether the intrusive freelist is non-nil, the
incache flag, and the span's object capacity
cap = (npages << _PageShift) / elemsize. -/
structure mspanData where
  sweepgen : Nat
  ref : Nat
  freelistNonempty : Bool
  incache : Bool
  cap : Nat
deriving DecidableEq

structure mcentralState where
  nonempty : List Nat
  empty : List Nat
deriving DecidableEq

structure mheapState where
  sweepgen : Nat
  free : List Nat
deriving DecidableEq

/-- State seen by the central-list operations: the heap, one central list
pair, and the per-span data.  Spans are identified by Nat ids, and the
intrusive doubly linked span lists are modelled as lists of ids. -/
structure centralWorld where
  heap : mheapState
  central : mcentralState
  spans : Nat → mspanData

/-- mSpanList_Remove: unlink a span from the list it is linked into.  In a
well-formed state a span is linked in at most one of the two lists, so
unlinking is erasing it from both. -/
def mSpanList_Remove (c : mcentralState) (s : Nat) : mcentralState :=
  { nonempty := c.nonempty.erase s, empty := c.empty.erase s }

/-- mSpanList_Insert places the span at the front of a list. -/
def mSpanList_Insert (l : List Nat) (s : Nat) : List Nat := s :: l

/-- mSpanList_InsertBack places the span at the back of a list. -/
def mSpanList_InsertBack (l : List Nat) (s : Nat) : List Nat := l ++ [s]

/-- Steps of the central free list: one constructor per control path of
mCentral_CacheSpan, mCentral_UncacheSpan, mCentral_FreeSpan and
mCentral_Grow (mcentral.go lines 869-1057) that completes without hitting a
fatal throw (throws abort the process, so they produce no successor state).
sg denotes mheap_.sweepgen.  Which span a list traversal settles on is
abstracted: any span satisfying the guards of a path may be the one acted
on.  mSpan_Sweep is not under src/; modelled from the spec: sweeping
reclaims objects of the span (yielding a new ref count ref', and a possibly
empty freelist), updates the span's sweepgen to sg through
mCentral_FreeSpan with preserve=true, and moves the span between no lists. -/
inductive centralStep : centralWorld → centralWorld → Prop where
  | cacheNonemptySweep (w : centralWorld) (s ref' : Nat)
      (hmem : s ∈ w.central.nonempty)
      (hsg : (w.spans s).sweepgen + 2 = w.heap.sweepgen)
      (hinc : (w.spans s).incache = false)
      (href : ref' < (w.spans s).cap) :
      centralStep w
        { heap := w.heap
          central :=
            { nonempty := (mSpanList_Remove w.central s).nonempty
              empty := mSpanList_InsertBack (mSpanList_Remove w.central s).empty s }
          spans := updF w.spans s { w.spans s with
            sweepgen := w.heap.sweepgen, ref := ref',
            freelistNonempty := true, incache := true } }
  | cacheNonemptyNoSweep (w : centralWorld) (s : Nat)
      (hmem : s ∈ w.central.nonempty)
      (hsg2 : (w.spans s).sweepgen + 2 ≠ w.heap.sweepgen)
      (hsg1 : (w.spans s).sweepgen + 1 ≠ w.heap.sweepgen)
      (hfl : (w.spans s).freelistNonempty = true)
      (href : (w.spans s).ref < (w.spans s).cap) :
      centralStep w
        { heap := w.heap
          central :=
            { nonempty := (mSpanList_Remove w.central s).nonempty
              empty := mSpanList_InsertBack (mSpanList_Remove w.central s).empty s }
          spans := updF w.spans s { w.spans s with incache := true } }
  | cacheEmptySweepFound (w : centralWorld) (s ref' : Nat)
      (hmem : s ∈ w.central.empty)
      (hsg : (w.spans s).sweepgen + 2 = w.heap.sweepgen)
      (hinc : (w.spans s).incache = false)
      (href : ref' < (w.spans s).cap) :
      centralStep w
        { heap := w.heap
          central :=
            { nonempty := (mSpanList_Remove w.central s).nonempty
              empty := mSpanList_InsertBack (mSpanList_Remove w.central s).empty s }
          spans := updF w.spans s { w.spans s with
            sweepgen := w.heap.sweepgen, ref := ref',
            freelistNonempty := true, incache := true } }
  | cacheEmptySweepRetry (w : centralWorld) (s ref' : Nat)
      (hmem : s ∈ w.central.empty)
      (hsg : (w.spans s).sweepgen + 2 = w.heap.sweepgen)
      (hinc : (w.spans s).incache = false) :
      centralStep w
        { heap := w.heap
          central :=
            { nonempty := (mSpanList_Remove w.central s).nonempty
              empty := mSpanList_InsertBack (mSpanList_Remove w.central s).empty s }
          spans := updF w.spans s { w.spans s with
            sweepgen := w.heap.sweepgen, ref := ref',
            freelistNonempty := false, incache := false } }
  | cacheGrow (w : centralWorld) (s : Nat)
      (hmem : s ∈ w.heap.free)
      (hcap : 0 < (w.spans s).cap) :
      centralStep w
        { heap := { w.heap with free := w.heap.free.erase s }
          central :=
            { nonempty := w.central.nonempty
              empty := mSpanList_InsertBack w.central.empty s }
          spans := updF w.spans s { w.spans s with
            sweepgen := w.heap.sweepgen, ref := 0,
            freelistNonempty := true, incache := true } }
  | uncacheToNonempty (w : centralWorld) (s : Nat)
      (hinc : (w.spans s).incache = true)
      (hmem : s ∈ w.central.empty)
      (href0 : (w.spans s).ref ≠ 0)
      (hn : (w.spans s).ref < (w.spans s).cap) :
      centralStep w
        { heap := w.heap
          central :=
            { nonempty := mSpanList_Insert (mSpanList_Remove w.central s).nonempty s
              empty := (mSpanList_Remove w.central s).empty }
          spans := updF w.spans s { w.spans s with incache := false } }
  | uncacheFull (w : centralWorld) (s : Nat)
      (hinc : (w.spans s).incache = true)
      (href0 : (w.spans s).ref ≠ 0)
      (hn : ¬ (w.spans s).ref < (w.spans s).cap) :
      centralStep w
        { heap := w.heap
          central := w.central
          spans := updF w.spans s { w.spans s with incache := false } }
  | freeSpanPreserve (w : centralWorld) (s n : Nat)
      (hinc : (w.spans s).incache = false)
      (hlinked : s ∈ w.central.nonempty ∨ s ∈ w.central.empty)
      (hn : 0 < n) (hle : n ≤ (w.spans s).ref) :
      centralStep w
        { heap := w.heap
          central := w.central
          spans := updF w.spans s { w.spans s with
            sweepgen := w.heap.sweepgen, ref := (w.spans s).ref - n,
            freelistNonempty := true } }
  | freeSpanMoveNonempty (w : centralWorld) (s n : Nat)
      (hinc : (w.spans s).incache = false)
      (hwasempty : (w.spans s).freelistNonempty = false)
      (hlinked : s ∈ w.central.nonempty ∨ s ∈ w.central.empty)
      (hn : 0 < n) (hlt : n < (w.spans s).ref) :
      centralStep w
        { heap := w.heap
          central :=
            { nonempty := mSpanList_Insert (mSpanList_Remove w.central s).nonempty s
              empty := (mSpanList_Remove w.central s).empty }
          spans := updF w.spans s { w.spans s with
            sweepgen := w.heap.sweepgen, ref := (w.spans s).ref - n,
            freelistNonempty := true } }
  | freeSpanStay (w : centralWorld) (s n : Nat)
      (hinc : (w.spans s).incache = false)
      (hwasempty : (w.spans s).freelistNonempty = true)
      (hn : 0 < n) (hlt : n < (w.spans s).ref) :
      centralStep w
        { heap := w.heap
          central := w.central
          spans := updF w.spans s { w.spans s with
            sweepgen := w.heap.sweepgen, ref := (w.spans s).ref - n,
            freelistNonempty := true } }
  | freeSpanToHeap (w : centralWorld) (s n : Nat)
      (hinc : (w.spans s).incache = false)
      (hlinked : s ∈ w.central.nonempty ∨ s ∈ w.central.empty)
      (hn : 0 < n) (heq : n = (w.spans s).ref) :
      centralStep w
        { heap := { w.heap with free := mSpanList_InsertBack w.heap.free s }
          central := mSpanList_Remove w.central s
          spans := updF w.spans s { w.spans s with
            sweepgen := w.heap.sweepgen, ref := 0,
            freelistNonempty := false, incache := false } }

/-- Number of span containers among the three span lists (central nonempty,
central empty, heap free) that hold span s, counted with multiplicity. -/
def occ3 (w : centralWorld) (s : Nat) : Nat :=
  w.central.nonempty.count s + w.central.empty.count s + w.heap.free.count s

/-- Exclusivity as the claim states it: the spans cached by a ThreadCache
form a fourth container, and every span belongs to at most one of the four
containers. -/
def exclusive4 (w : centralWorld) : Prop :=
  ∀ s, occ3 w s + (if (w.spans s).incache then 1 else 0) ≤ 1

/-- Exclusivity invariant the code actually maintains: every span occupies
at most one place among the three span lists, and a span cached by a
ThreadCache stays linked in the central empty list. -/
def spanListInv (w : centralWorld) : Prop :=
  (∀ s, occ3 w s ≤ 1) ∧ (∀ s, (w.spans s).incache = true → s ∈ w.central.empty)

/-- Initial world for the concrete instances: one span (id 0) linked in the
central nonempty list, already swept (sweepgen = sg), with a non-nil
freelist, no live objects and room for one object. -/
def c4World : centralWorld :=
  { heap := { sweepgen := 2, free := [] }
    central := { nonempty := [0], empty := [] }
    spans := fun _ =>
      { sweepgen := 2, ref := 0, freelistNonempty := true, incache := false, cap := 1 } }

/-- World reached from c4World by mCentral_CacheSpan taking the
no-sweep-needed path on span 0. -/
def c4WorldAfter : centralWorld :=
  { heap := c4World.heap
    central :=
      { nonempty := (mSpanList_Remove c4World.central 0).nonempty
        empty := mSpanList_InsertBack (mSpanList_Remove c4World.central 0).empty 0 }
    spans := updF c4World.spans 0 { c4World.spans 0 with incache := true } }

/-- Initial world used by the C4 witness: one free span in the heap. -/
def c4GrowWorld : centralWorld :=
  { heap := { sweepgen := 2, free := [5] }
    central := { nonempty := [], empty := [] }
    spans := fun _ =>
      { sweepgen := 0, ref := 0, freelistNonempty := false, incache := false, cap := 4 } }



/-! ## Theorems about the size-class table -/

/-- Sanity: the class-choosing loop produces exactly _NumSizeClasses
classes, which initSizes enforces with a fatal consistency check. -/
theorem producedSizeClasses_ok : producedSizeClasses = _NumSizeClasses := by decide

/-- Sanity: the computed class sizes agree with the table documented in the
source (comment at msize.go line 678). -/
theorem class_to_size_documented :
    class_to_size = [0, 8, 16, 32, 48, 64, 80, 96, 112, 128, 144, 160, 176, 192, 208,
      224, 240, 256, 288, 320, 352, 384, 416, 448, 480, 512, 576, 640, 704, 768, 896,
      1024, 1152, 1280, 1408, 1536, 1664, 2048, 2304, 2560, 2816, 3072, 3328, 4096,
      4608, 5376, 6144, 6400, 6656, 6912, 8192, 8448, 8704, 9472, 10496, 12288, 13568,
      14080, 16384, 16640, 17664, 20480, 21248, 24576, 24832, 28416, 32768] := by decide

theorem seqCheck_spec (p : Nat → Bool) :
    ∀ n lo, seqCheck n lo p = true → ∀ s, lo ≤ s → s < lo + n → p s = true := by
  intro n
  induction n with
  | zero => intro lo _ s h1 h2; omega
  | succ m ih =>
    intro lo h s h1 h2
    simp only [seqCheck, Bool.and_eq_true] at h
    rcases h with ⟨hp, hrest⟩
    rcases Nat.eq_or_lt_of_le h1 with rfl | hlt
    · exact hp
    · exact ih (lo+1) hrest s hlt (by omega)

/-- The waste bound is monotone in s as long as the granularity agrees. -/
theorem wasteBound_mono (num den s t : Nat) (hst : s ≤ t)
    (hg : lookupGranularity s = lookupGranularity t) :
    wasteBound num den s ≤ wasteBound num den t := by
  unfold wasteBound divRoundUp
  rw [hg]
  have h1 : s * num ≤ t * num := Nat.mul_le_mul_right num hst
  have h2 : (s * num + den - 1) / den ≤ (t * num + den - 1) / den :=
    Nat.div_le_div_right (by omega)
  exact Nat.mul_le_mul_right _ (Nat.div_le_div_right (by omega))

set_option maxHeartbeats 4000000 in
theorem checkC1small_all : seqCheck 127 1 checkC1small = true := by decide

set_option maxHeartbeats 4000000 in
theorem checkC1large_all : seqCheck 249 0 checkC1large = true := by decide

set_option maxHeartbeats 1000000 in
theorem checkC2_all : seqCheck 66 1 checkC2 = true := by decide


/-! ## Claim C2: classification is idempotent on class boundaries -/

/-- C2: for every valid size class c in [1, 66], classifying the class's
own object size returns that same class:
sizeToClass (class_to_size[c]) = c. -/
theorem sizeclass_idempotent (c : Nat) (h1 : 1 ≤ c) (h2 : c ≤ 66) :
    sizeToClass (class_to_size.getD c 0) = some c := by
  have h := seqCheck_spec checkC2 66 1 checkC2_all c h1 (by omega)
  simpa [checkC2, decide_eq_true_eq] using h

/-- Witness for sizeclass_idempotent at the tiny class: class 2 has object
size 16 and classifies back to class 2. -/
theorem sizeclass_idempotent_witness :
    1 ≤ 2 ∧ 2 ≤ 66 ∧ sizeToClass (class_to_size.getD 2 0) = some 2 :=
  ⟨by decide, by decide, sizeclass_idempotent 2 (by decide) (by decide)⟩

/-! ## Claim C1: bounded round-up waste -/

/-- C1 as stated is false on the code: at s = 17 classification returns
class 3 with object size 32 (the table has no 24-byte class: alignment
jumps from 8 to 16 at size 16), while ceil(17 * 1.125) = 20 rounded up to
the 8-byte lookup granularity is 24, and 32 > 24. -/
theorem sizeclass_waste_counterexample :
    ¬ ∀ s, 1 ≤ s → s ≤ 32768 → ∀ c, sizeToClass s = some c →
      class_to_size.getD c 0 ≤ wasteBound 9 8 s := by
  intro h
  have h17 := h 17 (by decide) (by decide) 3 (by decide)
  revert h17
  decide

/-- Helper for the amended C1 on the 8-granularity range s ∈ [1, 1016]. -/
theorem c1_small_range (s : Nat) (h1 : 1 ≤ s) (h2 : s ≤ 1016) :
    ∃ c, sizeToClass s = some c ∧ s ≤ class_to_size.getD c 0 ∧
      class_to_size.getD c 0 ≤ wasteBound 3 2 s := by
  have hmax : ¬ s > _MaxSmallSize := by
    have hms : _MaxSmallSize = 32768 := rfl
    omega
  have hbr : ¬ s > 1024 - 8 := by omega
  have hjdef : (s + 7) >>> 3 = (s + 7) / 8 := by
    have h8 : (2:Nat) ^ 3 = 8 := rfl
    rw [Nat.shiftRight_eq_div_pow, h8]
  have hst : sizeToClass s = some (size_to_class8.getD ((s + 7) / 8) 0) := by
    unfold sizeToClass
    rw [if_neg hmax, if_neg hbr, hjdef]
  set j := (s + 7) / 8 with hj
  have hj1 : 1 ≤ j := by omega
  have hcheck := seqCheck_spec checkC1small 127 1 checkC1small_all j hj1 (by omega)
  simp only [checkC1small, Bool.and_eq_true, decide_eq_true_eq] at hcheck
  obtain ⟨hA, hB⟩ := hcheck
  refine ⟨size_to_class8.getD j 0, hst, by omega, ?_⟩
  calc class_to_size.getD (size_to_class8.getD j 0) 0
      ≤ wasteBound 3 2 (8 * j - 7) := hB
    _ ≤ wasteBound 3 2 s := by
        apply wasteBound_mono 3 2 _ s (by omega)
        unfold lookupGranularity
        split_ifs <;> omega

/-- Helper for the amended C1 on the 128-granularity range s ∈ [1017, 32768]. -/
theorem c1_large_range (s : Nat) (h1 : 1017 ≤ s) (h2 : s ≤ 32768) :
    ∃ c, sizeToClass s = some c ∧ s ≤ class_to_size.getD c 0 ∧
      class_to_size.getD c 0 ≤ wasteBound 3 2 s := by
  have hmax : ¬ s > _MaxSmallSize := by
    have hms : _MaxSmallSize = 32768 := rfl
    omega
  have hbr : s > 1024 - 8 := by omega
  have hsub : s + 127 - 1024 = s - 897 := by omega
  have hjdef : (s + 127 - 1024) >>> 7 = (s - 897) / 128 := by
    have h128 : (2:Nat) ^ 7 = 128 := rfl
    rw [Nat.shiftRight_eq_div_pow, h128, hsub]
  have hst : sizeToClass s = some (size_to_class128.getD ((s - 897) / 128) 0) := by
    unfold sizeToClass
    rw [if_neg hmax, if_pos hbr, hjdef]
  set j := (s - 897) / 128 with hj
  have hcheck := seqCheck_spec checkC1large 249 0 checkC1large_all j (Nat.zero_le j) (by omega)
  simp only [checkC1large, Bool.and_eq_true, decide_eq_true_eq] at hcheck
  obtain ⟨hA, hB⟩ := hcheck
  have hblock : blockMin128 j ≤ s := by
    unfold blockMin128
    split
    · omega
    · omega
  refine ⟨size_to_class128.getD j 0, hst, by omega, ?_⟩
  calc class_to_size.getD (size_to_class128.getD j 0) 0
      ≤ wasteBound 3 2 (blockMin128 j) := hB
    _ ≤ wasteBound 3 2 s := by
        apply wasteBound_mono 3 2 _ s hblock
        unfold blockMin128 lookupGranularity
        split_ifs <;> omega

/-- C1 (amended): for every request size s in [1, 32768] the classification
covers the request, s ≤ class_to_size[sizeToClass s], but the round-up
waste bound must be weakened from 12.5% to 50%: class_to_size[sizeToClass
s] ≤ ceil(s * 1.5) rounded up to the lookup granularity (8 bytes for sizes
≤ 1024, 128 bytes for larger).  The 12.5% bound fails because the alignment
schedule and the class-merging step of initSizes leave gaps of up to 1.88x
between consecutive class sizes (e.g. 16 → 32); the worst granularity-
rounded ratio, at s = 17, is below 3/2 only after the 8-byte rounding. -/
theorem sizeclass_bounded_waste (s : Nat) (h1 : 1 ≤ s) (h2 : s ≤ 32768) :
    ∃ c, sizeToClass s = some c ∧ s ≤ class_to_size.getD c 0 ∧
      class_to_size.getD c 0 ≤ wasteBound 3 2 s := by
  rcases le_or_lt s 1016 with h | h
  · exact c1_small_range s h1 h
  · exact c1_large_range s (by omega) h2

/-- Witness for sizeclass_bounded_waste at s = 5000 (the spec's scenario A
size: 5000 is served from the 5376-byte class). -/
theorem sizeclass_bounded_waste_witness :
    1 ≤ 5000 ∧ 5000 ≤ 32768 ∧
      (∃ c, sizeToClass 5000 = some c ∧ 5000 ≤ class_to_size.getD c 0 ∧
        class_to_size.getD c 0 ≤ wasteBound 3 2 5000) :=
  ⟨by decide, by decide, sizeclass_bounded_waste 5000 (by decide) (by decide)⟩

/-! ## Claim C10: the inline classification refines sizeToClass -/

/-- C10: the inline size classification on mallocgc's small path computes
the same class as sizeToClass for every size in [1, 32768]; in particular
sizes in (1016, 1024] are classified through the 128-granularity array at
index 0 by both, receiving class 31, the 1024-byte class. -/
theorem mallocSizeclass_refines (s : Nat) (h1 : 1 ≤ s) (h2 : s ≤ 32768) :
    sizeToClass s = some (mallocSizeclass s) ∧
      (1016 < s → s ≤ 1024 →
        mallocSizeclass s = size_to_class128.getD ((s + 127 - 1024) >>> 7) 0 ∧
        (s + 127 - 1024) >>> 7 = 0 ∧ mallocSizeclass s = 31) := by
  have hmax : ¬ s > _MaxSmallSize := by
    have hms : _MaxSmallSize = 32768 := rfl
    omega
  constructor
  · unfold sizeToClass mallocSizeclass
    rw [if_neg hmax]
    by_cases h : s ≤ 1024 - 8
    · rw [if_neg (by omega), if_pos h]
    · rw [if_pos (by omega), if_neg h]
  · intro hlo hhi
    have hidx : (s + 127 - 1024) >>> 7 = 0 := by
      have h128 : (2:Nat) ^ 7 = 128 := rfl
      rw [Nat.shiftRight_eq_div_pow, h128]
      omega
    have hcls : mallocSizeclass s = size_to_class128.getD ((s + 127 - 1024) >>> 7) 0 := by
      unfold mallocSizeclass
      rw [if_neg (by omega)]
    refine ⟨hcls, hidx, ?_⟩
    rw [hcls, hidx]
    decide

/-- Witness for mallocSizeclass_refines at the boundary size s = 1020,
which lies in (1016, 1024] and is classified to class 31 by both paths. -/
theorem mallocSizeclass_refines_witness :
    1 ≤ 1020 ∧ 1020 ≤ 32768 ∧
      (sizeToClass 1020 = some (mallocSizeclass 1020) ∧
        (1016 < 1020 → 1020 ≤ 1024 →
          mallocSizeclass 1020 = size_to_class128.getD ((1020 + 127 - 1024) >>> 7) 0 ∧
          (1020 + 127 - 1024) >>> 7 = 0 ∧ mallocSizeclass 1020 = 31)) :=
  ⟨by decide, by decide, mallocSizeclass_refines 1020 (by decide) (by decide)⟩


/-! ## Claims about mallocgc paths (C3, C5, C6, C8, C9) -/

theorem maxSmallSize_eq : maxSmallSize = 32768 := rfl

theorem maxTinySize_eq : maxTinySize = 16 := rfl

theorem pageSize_eq : _PageSize = 8192 := rfl

theorem pageMask_eq : _PageMask = 8191 := rfl

theorem two_pow_64_eq : (2:Nat) ^ 64 = 18446744073709551616 := by norm_num

/-- popSlot never touches the tiny fields of the cache. -/
theorem popSlot_tiny_fields (st : mcacheState) (sc : Nat) :
    (popSlot st sc).2.tiny = st.tiny ∧ (popSlot st sc).2.tinyoffset = st.tinyoffset := by
  unfold popSlot
  cases h : st.alloc sc <;> simp

/-- C9: every allocation request of size 0 returns the shared zerobase
sentinel pointer and leaves the allocator state unchanged; hence any two
zero-size allocations, in any states, yield equal pointers. -/
theorem mallocgc_zero_sentinel (noscan : Bool) (startPage : Nat) (st : mcacheState) :
    mallocgc 0 noscan startPage st = (some Ptr.zerobase, st) := by
  unfold mallocgc
  rw [if_pos rfl]

/-- C3: a request larger than maxSmallSize bypasses the ThreadCache and
CentralFreeList tiers: mallocgc goes straight to largeAlloc, the cache
state is returned untouched, and the resulting span's page count is
ceil(size / pageSize) with limit = start * pageSize + size exactly.  The
hypothesis size + _PageSize < 2^64 excludes the uintptr-overflow throw,
which claim C6 covers. -/
theorem mallocgc_large_path (size : Nat) (noscan : Bool) (startPage : Nat) (st : mcacheState)
    (h1 : maxSmallSize < size) (h2 : size + _PageSize < 2 ^ 64) :
    ∃ sp, largeAlloc size startPage = some sp ∧
      mallocgc size noscan startPage st = (some (Ptr.mem (sp.start <<< _PageShift)), st) ∧
      sp.npages = divRoundUp size _PageSize ∧
      sp.limit = sp.start * _PageSize + size ∧
      sp.start = startPage := by
  have hms := maxSmallSize_eq
  have hps := pageSize_eq
  have hshr : size >>> _PageShift = size / 8192 := by
    have hp : (2:Nat) ^ _PageShift = 8192 := rfl
    rw [Nat.shiftRight_eq_div_pow, hp]
  have hand : size &&& _PageMask = size % 8192 := by
    have hp : _PageMask = 2 ^ 13 - 1 := rfl
    have hp2 : (2:Nat) ^ 13 = 8192 := rfl
    rw [hp, Nat.and_pow_two_sub_one_eq_mod, hp2]
  have hnoov : ¬ (size + _PageSize) % 2 ^ 64 < size := by
    rw [Nat.mod_eq_of_lt h2]
    omega
  have hla : largeAlloc size startPage =
      some { start := startPage
             npages := if size &&& _PageMask != 0 then size >>> _PageShift + 1
                       else size >>> _PageShift
             limit := (startPage <<< _PageShift) + size } := by
    unfold largeAlloc
    rw [if_neg hnoov]
  refine ⟨_, hla, ?_, ?_, ?_, rfl⟩
  · unfold mallocgc
    rw [if_neg (by omega), if_neg (by omega), hla]
  · show (if size &&& _PageMask != 0 then size >>> _PageShift + 1 else size >>> _PageShift) =
      divRoundUp size _PageSize
    unfold divRoundUp
    rw [hshr, hps]
    rcases Nat.eq_zero_or_pos (size % 8192) with hz | hpos
    · rw [if_neg (by simp [hand, hz])]
      omega
    · rw [if_pos (by simp [hand]; omega)]
      omega
  · show (startPage <<< _PageShift) + size = startPage * _PageSize + size
    have : startPage <<< _PageShift = startPage * _PageSize := by
      rw [Nat.shiftLeft_eq]
      rfl
    rw [this]

/-- Witness for mallocgc_large_path at the spec's scenario A size 40000:
page count ceil(40000/8192) = 5. -/
theorem mallocgc_large_path_witness :
    maxSmallSize < 40000 ∧ 40000 + _PageSize < 2 ^ 64 ∧
      (∃ sp, largeAlloc 40000 7 = some sp ∧
        mallocgc 40000 true 7 initialMCache = (some (Ptr.mem (sp.start <<< _PageShift)), initialMCache) ∧
        sp.npages = divRoundUp 40000 _PageSize ∧
        sp.limit = sp.start * _PageSize + 40000 ∧
        sp.start = 7) :=
  ⟨by decide, by decide, mallocgc_large_path 40000 true 7 initialMCache (by decide) (by decide)⟩

/-- C6: an arena-overflowing request is reported as a failed call and no
allocator state is modified.  Large path: a size whose page round-up wraps
the 64-bit address space makes largeAlloc throw before touching anything,
so mallocgc yields no pointer and the unchanged state.  newarray: an
element count whose byte total exceeds _MaxMem panics before calling
mallocgc, returning the unchanged state. -/
theorem overflow_request_fails :
    (∀ (size : Nat) (noscan : Bool) (startPage : Nat) (st : mcacheState),
      size < 2 ^ 64 → 2 ^ 64 ≤ size + _PageSize →
        largeAlloc size startPage = none ∧
        mallocgc size noscan startPage st = (none, st)) ∧
    (∀ (elemSize n : Nat) (noscan : Bool) (startPage : Nat) (st : mcacheState),
      0 < elemSize → _MaxMem < elemSize * n →
        newarray elemSize n noscan startPage st = (none, st)) := by
  constructor
  · intro size noscan startPage st hlt hge
    have hps := pageSize_eq
    have h64 := two_pow_64_eq
    have hov : (size + _PageSize) % 2 ^ 64 < size := by
      have : (size + _PageSize) % 2 ^ 64 = size + _PageSize - 2 ^ 64 := by
        rw [Nat.mod_eq_sub_mod hge, Nat.mod_eq_of_lt (by omega)]
      omega
    have hla : largeAlloc size startPage = none := by
      unfold largeAlloc
      rw [if_pos hov]
    refine ⟨hla, ?_⟩
    unfold mallocgc
    rw [if_neg (by omega), if_neg (by have := maxSmallSize_eq; omega), hla]
  · intro elemSize n noscan startPage st he hM
    have hguard : 2 ^ 63 ≤ n ∨ (0 < elemSize ∧ n > _MaxMem / elemSize) := by
      right
      refine ⟨he, ?_⟩
      rw [gt_iff_lt, Nat.div_lt_iff_lt_mul he]
      calc _MaxMem < elemSize * n := hM
        _ = n * elemSize := Nat.mul_comm elemSize n
    unfold newarray
    rw [if_pos hguard]

/-- Witness for overflow_request_fails: the largest uintptr as a large
request, and an 8-byte element type with 2^39 elements for newarray. -/
theorem overflow_request_fails_witness :
    (largeAlloc (2 ^ 64 - 1) 0 = none ∧
      mallocgc (2 ^ 64 - 1) true 0 initialMCache = (none, initialMCache)) ∧
    newarray 8 (2 ^ 39) true 0 initialMCache = (none, initialMCache) :=
  ⟨overflow_request_fails.1 (2 ^ 64 - 1) true 0 initialMCache (by norm_num) (by decide),
   overflow_request_fails.2 8 (2 ^ 39) true 0 initialMCache (by norm_num) (by decide)⟩

/-- C8: when a tiny (pointer-free, size < 16) allocation misses the current
tiny block (the aligned offset would overflow the block, or there is no
block) and a fresh zeroed 16-byte-class slot x is obtained, the cache
afterwards keeps whichever of the old and new block has more free space:
the new block (with tinyoffset = size) replaces the old one exactly when
size < the previous tinyoffset, otherwise tiny and tinyoffset are kept
unchanged. -/
theorem tiny_newblock_keeps_roomier (size : Nat) (st : mcacheState)
    (h0 : 0 < size) (hsz : size < maxTinySize)
    (hmiss : maxTinySize < tinyAlignedOff st.tinyoffset size + size ∨ st.tiny = none)
    (hoff : st.tinyoffset ≤ maxTinySize) :
    (mallocgc size true 0 st).1 = some (Ptr.mem (popSlot st tinySizeClass).1) ∧
    (mallocgc size true 0 st).2.tiny =
      (if size < st.tinyoffset then some (popSlot st tinySizeClass).1 else st.tiny) ∧
    (mallocgc size true 0 st).2.tinyoffset =
      (if size < st.tinyoffset then size else st.tinyoffset) ∧
    ((size < st.tinyoffset) ↔ maxTinySize - st.tinyoffset < maxTinySize - size) := by
  have hmt := maxTinySize_eq
  have hms := maxSmallSize_eq
  obtain ⟨hf1, hf2⟩ := popSlot_tiny_fields st tinySizeClass
  have hnew : mallocgc size true 0 st = mallocTinyNewBlock size st := by
    unfold mallocgc
    rw [if_neg (by omega), if_pos (by omega)]
    rw [if_pos (show (true && decide (size < maxTinySize)) = true by simp [hsz])]
    rw [if_neg (by
      rcases hmiss with hmiss | hmiss
      · exact fun hcon => absurd hcon.1 (by omega)
      · exact fun hcon => hcon.2 hmiss)]
  rw [hnew]
  simp only [mallocTinyNewBlock]
  rw [hf2]
  refine ⟨?_, ?_, ?_, by omega⟩
  · by_cases hrep : size < st.tinyoffset <;> simp [hrep]
  · by_cases hrep : size < st.tinyoffset <;> simp [hrep, hf1]
  · by_cases hrep : size < st.tinyoffset <;> simp [hrep, hf2]

/-- Witness for tiny_newblock_keeps_roomier: a cache whose tiny block is at
offset 12; an 8-byte request aligns to offset 16, misses, and the fresh
block (free space 8) replaces the old one (free space 4). -/
theorem tiny_newblock_keeps_roomier_witness :
    (0 < 8 ∧ 8 < maxTinySize ∧
      (maxTinySize < tinyAlignedOff 12 8 + 8 ∨ (none : Option Nat) = none) ∧ 12 ≤ maxTinySize) ∧
    ((mallocgc 8 true 0
        { tiny := some 64, tinyoffset := 12, local_tinyallocs := 0, local_cachealloc := 0,
          alloc := fun _ => [], freshCtr := 3, popCount := fun _ => 0 }).2.tiny =
      (if 8 < 12 then
        some (popSlot
          { tiny := some 64, tinyoffset := 12, local_tinyallocs := 0, local_cachealloc := 0,
            alloc := fun _ => [], freshCtr := 3, popCount := fun _ => 0 } tinySizeClass).1
       else some 64)) :=
  ⟨⟨by decide, by decide, Or.inl (by decide), by decide⟩,
   (tiny_newblock_keeps_roomier 8
      { tiny := some 64, tinyoffset := 12, local_tinyallocs := 0, local_cachealloc := 0,
        alloc := fun _ => [], freshCtr := 3, popCount := fun _ => 0 }
      (by decide) (by decide) (Or.inl (by decide)) (by decide)).2.1⟩

/-- C5 fails on the code (a code bug): starting from the zero-initialized
cache that allocmcache produces, two pointer-free 1-byte allocations
(requested sizes sum to 2 ≤ 16) each take a fresh 16-byte-class slot from
the normal path.  The install guard size < c.tinyoffset is never true when
tinyoffset starts at 0, so a tiny block is never installed and no packing
ever happens, contradicting the tiny allocator's own documentation
(malloc.go lines 493-494: several tiny allocation requests are combined
into a single memory block). -/
theorem tiny_packing_bug :
    (allocSeq [1, 1] initialMCache).popCount tinySizeClass = 2 ∧
    (allocSeq [1, 1] initialMCache).tiny = none := by
  constructor <;> rfl


/-! ## Claim C7: division magic -/

set_option maxHeartbeats 4000000 in
theorem checkDivMagic_all : seqCheck 66 1 checkDivMagic = true := by decide

/-- Correctness of multiply-shift magic division: when mul = ceil(2^k/dodd)
(pinned by the two inequalities) and n is small enough that the error term
n * (mul * dodd - 2^k) stays below 2^k, then (n * mul) >>> k = n / dodd. -/
theorem magic_div_exact (dodd mul k n : Nat) (hd : 0 < dodd)
    (hlo : 2 ^ k ≤ mul * dodd) (hhi : mul * dodd < 2 ^ k + dodd)
    (hn : n * (mul * dodd - 2 ^ k) < 2 ^ k) :
    (n * mul) >>> k = n / dodd := by
  rw [Nat.shiftRight_eq_div_pow]
  set r := mul * dodd - 2 ^ k with hr
  have hmd : mul * dodd = 2 ^ k + r := by omega
  set q := n / dodd with hq
  set s := n % dodd with hs
  have hn_eq : dodd * q + s = n := Nat.div_add_mod n dodd
  have hslt : s < dodd := Nat.mod_lt n hd
  have hn2 : n = q * dodd + s := by rw [← hn_eq]; ring
  have hqd : q * dodd ≤ n := by omega
  have hlow : q * 2 ^ k ≤ n * mul := by
    calc q * 2 ^ k ≤ q * (2 ^ k + r) := Nat.mul_le_mul_left q (by omega)
      _ = q * (mul * dodd) := by rw [hmd]
      _ = q * dodd * mul := by ring
      _ ≤ n * mul := Nat.mul_le_mul_right mul hqd
  have hup : n * mul < (q + 1) * 2 ^ k := by
    have hcan : n * mul * dodd < (q + 1) * 2 ^ k * dodd := by
      have e1 : n * mul * dodd = q * dodd * 2 ^ k + s * 2 ^ k + n * r := by
        calc n * mul * dodd = n * (mul * dodd) := by ring
          _ = n * (2 ^ k + r) := by rw [hmd]
          _ = n * 2 ^ k + n * r := by ring
          _ = (q * dodd + s) * 2 ^ k + n * r := by rw [← hn2]
          _ = q * dodd * 2 ^ k + s * 2 ^ k + n * r := by ring
      have e2 : (q + 1) * 2 ^ k * dodd = q * dodd * 2 ^ k + dodd * 2 ^ k := by ring
      have hs2 : s * 2 ^ k + 2 ^ k ≤ dodd * 2 ^ k := by
        have : (s + 1) * 2 ^ k ≤ dodd * 2 ^ k := Nat.mul_le_mul_right _ (by omega)
        calc s * 2 ^ k + 2 ^ k = (s + 1) * 2 ^ k := by ring
          _ ≤ dodd * 2 ^ k := this
      rw [e1, e2]
      omega
    exact Nat.lt_of_mul_lt_mul_right hcan
  exact Nat.div_eq_of_lt_le hlow hup

/-- Masking an address below 2^64 with the uintptr complement 2^64 - 2^t
clears the low t bits, i.e. rounds down to a multiple of 2^t. -/
theorem and_baseMask (t n : Nat) (ht : t ≤ 64) (hn : n < 2 ^ 64) :
    n &&& (2 ^ 64 - 2 ^ t) = n / 2 ^ t * 2 ^ t := by
  have e1 : (2:Nat) ^ (64 - t) * 2 ^ t = 2 ^ 64 := by
    rw [← pow_add]
    congr 1
    omega
  have hmask : (2:Nat) ^ 64 - 2 ^ t = (2 ^ (64 - t) - 1) <<< t := by
    rw [Nat.shiftLeft_eq, Nat.sub_mul, one_mul, e1]
  have hrhs : n / 2 ^ t * 2 ^ t = (n >>> t) <<< t := by
    rw [Nat.shiftLeft_eq, Nat.shiftRight_eq_div_pow]
  rw [hmask, hrhs]
  apply Nat.eq_of_testBit_eq
  intro i
  rw [Nat.testBit_and, Nat.testBit_shiftLeft, Nat.testBit_shiftLeft, Nat.testBit_shiftRight,
    Nat.testBit_two_pow_sub_one]
  by_cases hti : t ≤ i
  · by_cases hi64 : i < 64
    · have : t + (i - t) = i := by omega
      simp [hti, this, show i - t < 64 - t by omega]
    · have hbit : n.testBit i = false := Nat.testBit_lt_two_pow (by
        calc n < 2 ^ 64 := hn
          _ ≤ 2 ^ i := Nat.pow_le_pow_right (by omega) (by omega))
      have : t + (i - t) = i := by omega
      simp [hti, this, hbit, show ¬ i - t < 64 - t by omega]
  · simp [hti]

/-- C7: for every size class c ∈ [1, 66] with object size
d = class_to_size[c] and m = computeDivMagic d, and every span-internal
byte offset n below the class's page-run capacity
class_to_allocnpages[c] * pageSize:
((n >>> m.shift) * m.mul) >>> m.shift2 = n / d, and when d is a power of
two, n &&& m.baseMask = (n / d) * d. -/
theorem divmagic_correct (c n : Nat) (hc1 : 1 ≤ c) (hc2 : c ≤ 66)
    (hn : n < class_to_allocnpages.getD c 0 * _PageSize) :
    ((n >>> (computeDivMagic (class_to_size.getD c 0)).shift) *
        (computeDivMagic (class_to_size.getD c 0)).mul) >>>
        (computeDivMagic (class_to_size.getD c 0)).shift2
      = n / class_to_size.getD c 0 ∧
    (class_to_size.getD c 0 &&& (class_to_size.getD c 0 - 1) = 0 →
      n &&& (computeDivMagic (class_to_size.getD c 0)).baseMask
        = n / class_to_size.getD c 0 * class_to_size.getD c 0) := by
  have hchk := seqCheck_spec checkDivMagic 66 1 checkDivMagic_all c hc1 (by omega)
  simp only [checkDivMagic, Bool.and_eq_true, decide_eq_true_eq] at hchk
  set d := class_to_size.getD c 0 with hd
  set m := computeDivMagic d with hm
  set dodd := d >>> m.shift with hdodd
  set cap := class_to_allocnpages.getD c 0 * _PageSize with hcap
  obtain ⟨⟨⟨⟨⟨⟨⟨h0, h1⟩, h2⟩, h3⟩, h4⟩, h5⟩, h6⟩, h7⟩ := hchk
  have hshr : ∀ x t : Nat, x >>> t = x / 2 ^ t := fun x t => Nat.shiftRight_eq_div_pow x t
  have hnle : n >>> m.shift ≤ (cap - 1) >>> m.shift := by
    rw [hshr, hshr]
    exact Nat.div_le_div_right (by omega)
  have hrange : (n >>> m.shift) * (m.mul * dodd - 2 ^ m.shift2) < 2 ^ m.shift2 := by
    calc (n >>> m.shift) * (m.mul * dodd - 2 ^ m.shift2)
        ≤ ((cap - 1) >>> m.shift) * (m.mul * dodd - 2 ^ m.shift2) :=
          Nat.mul_le_mul_right _ hnle
      _ < 2 ^ m.shift2 := h4
  have hdiv := magic_div_exact dodd m.mul m.shift2 (n >>> m.shift) h0 h2 h3 hrange
  have hmain : ((n >>> m.shift) * m.mul) >>> m.shift2 = n / d := by
    rw [hdiv, hshr, Nat.div_div_eq_div_mul, ← h1]
  refine ⟨hmain, ?_⟩
  intro hpow
  have h5p : m.baseMask = 2 ^ 64 - d ∧ dodd = 1 ∧ m.shift ≤ 64 := by
    rw [if_pos (by simpa using hpow)] at h5
    simpa using h5
  obtain ⟨hbm, hone, hsle⟩ := h5p
  have hdpow : d = 2 ^ m.shift := by
    rw [h1, hone, Nat.mul_one]
  rw [hbm, hdpow]
  exact and_baseMask m.shift n hsle (by omega)


/-- Witness for divmagic_correct: class 5 has object size 64 (a power of
two) and a one-page run; offset n = 1000 gives slot index 15. -/
theorem divmagic_correct_witness :
    1 ≤ 5 ∧ 5 ≤ 66 ∧ 1000 < class_to_allocnpages.getD 5 0 * _PageSize ∧
      (((1000 >>> (computeDivMagic (class_to_size.getD 5 0)).shift) *
          (computeDivMagic (class_to_size.getD 5 0)).mul) >>>
          (computeDivMagic (class_to_size.getD 5 0)).shift2
        = 1000 / class_to_size.getD 5 0 ∧
      (class_to_size.getD 5 0 &&& (class_to_size.getD 5 0 - 1) = 0 →
        1000 &&& (computeDivMagic (class_to_size.getD 5 0)).baseMask
          = 1000 / class_to_size.getD 5 0 * class_to_size.getD 5 0)) :=
  ⟨by decide, by decide, by decide,
   divmagic_correct 5 1000 (by decide) (by decide) (by decide)⟩

/-! ## Claim C4: span-container exclusivity -/

/-- Count of an element in an erased list, in omega-friendly form. -/
theorem count_erase_nat (l : List Nat) (a b : Nat) :
    (l.erase a).count b = l.count b - if b = a then 1 else 0 := by
  rw [List.count_erase]
  rcases eq_or_ne b a with h | h
  · simp [h]
  · simp [h, h.symm]

/-- C4 as stated is false on the code: from a world satisfying the four-way
exclusivity (one span, linked only in the central nonempty list, not
cached), the no-sweep path of mCentral_CacheSpan moves the span into the
central empty list and marks it cached, so afterwards it is a member of two
of the four containers (central empty and thread-cached) at once.  The
source documents this: the empty list holds spans with no free objects "or
cached in an mcache" (mcentral.go line 858), while the spec asserts a
cached span is in neither list. -/
theorem span_exclusivity_counterexample :
    exclusive4 c4World ∧ centralStep c4World c4WorldAfter ∧ ¬ exclusive4 c4WorldAfter := by
  refine ⟨?_, ?_, ?_⟩
  · intro s
    by_cases h : s = 0 <;>
      simp [c4World, occ3, h, List.count_cons, List.count_nil]
  · exact centralStep.cacheNonemptyNoSweep c4World 0 (by decide)
      (by decide) (by decide) (by decide) (by decide)
  · intro h
    have h0 := h 0
    revert h0
    simp [c4WorldAfter, c4World, occ3, exclusive4, mSpanList_Remove, mSpanList_InsertBack,
      updF, List.count_cons, List.count_nil, List.count_append]

/-- C4 (amended) preservation: every central free list operation
(CacheSpan in all its paths, UncacheSpan, FreeSpan, Grow) preserves the
exclusivity invariant the code actually maintains: a span occupies at most
one place among page-heap free, central nonempty and central empty, and a
span cached by a ThreadCache stays linked in the central empty list (it is
not removed from it while cached). -/
theorem span_exclusivity_preserved (w w2 : centralWorld)
    (hinv : spanListInv w) (hstep : centralStep w w2) : spanListInv w2 := by
  obtain ⟨hocc, hcache⟩ := hinv
  cases hstep with
  | cacheNonemptySweep s ref2 hmem hsg hinc href =>
    constructor
    · intro x
      have hx := hocc x
      have hs := hocc s
      have hmc : 0 < w.central.nonempty.count s := List.count_pos_iff.mpr hmem
      simp only [occ3, mSpanList_Remove, mSpanList_InsertBack, List.count_append,
        count_erase_nat, List.count_cons, List.count_nil, beq_iff_eq] at hx hs ⊢
      by_cases h : x = s
      · subst h
        simp only [eq_self_iff_true, if_true]
        omega
      · simp only [if_neg h, if_neg (Ne.symm h)]
        omega
    · intro x hx
      simp only [updF] at hx
      simp only [mSpanList_InsertBack, List.mem_append, List.mem_singleton]
      by_cases h : x = s
      · right; exact h
      · rw [if_neg h] at hx
        exact Or.inl (List.mem_erase_of_ne h |>.mpr (hcache x hx))
  | cacheNonemptyNoSweep s hmem hsg2 hsg1 hfl href =>
    constructor
    · intro x
      have hx := hocc x
      have hs := hocc s
      have hmc : 0 < w.central.nonempty.count s := List.count_pos_iff.mpr hmem
      simp only [occ3, mSpanList_Remove, mSpanList_InsertBack, List.count_append,
        count_erase_nat, List.count_cons, List.count_nil, beq_iff_eq] at hx hs ⊢
      by_cases h : x = s
      · subst h
        simp only [eq_self_iff_true, if_true]
        omega
      · simp only [if_neg h, if_neg (Ne.symm h)]
        omega
    · intro x hx
      simp only [updF] at hx
      simp only [mSpanList_InsertBack, List.mem_append, List.mem_singleton]
      by_cases h : x = s
      · right; exact h
      · rw [if_neg h] at hx
        exact Or.inl (List.mem_erase_of_ne h |>.mpr (hcache x hx))
  | cacheEmptySweepFound s ref2 hmem hsg hinc href =>
    constructor
    · intro x
      have hx := hocc x
      have hs := hocc s
      have hmc : 0 < w.central.empty.count s := List.count_pos_iff.mpr hmem
      simp only [occ3, mSpanList_Remove, mSpanList_InsertBack, List.count_append,
        count_erase_nat, List.count_cons, List.count_nil, beq_iff_eq] at hx hs ⊢
      by_cases h : x = s
      · subst h
        simp only [eq_self_iff_true, if_true]
        omega
      · simp only [if_neg h, if_neg (Ne.symm h)]
        omega
    · intro x hx
      simp only [updF] at hx
      simp only [mSpanList_InsertBack, List.mem_append, List.mem_singleton]
      by_cases h : x = s
      · right; exact h
      · rw [if_neg h] at hx
        exact Or.inl (List.mem_erase_of_ne h |>.mpr (hcache x hx))
  | cacheEmptySweepRetry s ref2 hmem hsg hinc =>
    constructor
    · intro x
      have hx := hocc x
      have hs := hocc s
      have hmc : 0 < w.central.empty.count s := List.count_pos_iff.mpr hmem
      simp only [occ3, mSpanList_Remove, mSpanList_InsertBack, List.count_append,
        count_erase_nat, List.count_cons, List.count_nil, beq_iff_eq] at hx hs ⊢
      by_cases h : x = s
      · subst h
        simp only [eq_self_iff_true, if_true]
        omega
      · simp only [if_neg h, if_neg (Ne.symm h)]
        omega
    · intro x hx
      simp only [updF] at hx
      simp only [mSpanList_InsertBack, List.mem_append, List.mem_singleton]
      by_cases h : x = s
      · rw [if_pos h] at hx
        have hx2 : False := by simpa using hx
        exact absurd hx2 (by simp)
      · rw [if_neg h] at hx
        exact Or.inl (List.mem_erase_of_ne h |>.mpr (hcache x hx))
  | cacheGrow s hmem hcap =>
    constructor
    · intro x
      have hx := hocc x
      have hs := hocc s
      have hmc : 0 < w.heap.free.count s := List.count_pos_iff.mpr hmem
      simp only [occ3, mSpanList_InsertBack, List.count_append,
        count_erase_nat, List.count_cons, List.count_nil, beq_iff_eq] at hx hs ⊢
      by_cases h : x = s
      · subst h
        simp only [eq_self_iff_true, if_true]
        omega
      · simp only [if_neg h, if_neg (Ne.symm h)]
        omega
    · intro x hx
      simp only [updF] at hx
      simp only [mSpanList_InsertBack, List.mem_append, List.mem_singleton]
      by_cases h : x = s
      · right; exact h
      · rw [if_neg h] at hx
        exact Or.inl (hcache x hx)
  | uncacheToNonempty s hinc hmem href0 hn =>
    constructor
    · intro x
      have hx := hocc x
      have hs := hocc s
      have hmc : 0 < w.central.empty.count s := List.count_pos_iff.mpr hmem
      simp only [occ3, mSpanList_Remove, mSpanList_Insert, List.count_cons,
        count_erase_nat, List.count_nil, beq_iff_eq] at hx hs ⊢
      by_cases h : x = s
      · subst h
        simp only [eq_self_iff_true, if_true]
        omega
      · simp only [if_neg h, if_neg (Ne.symm h)]
        omega
    · intro x hx
      simp only [updF] at hx
      by_cases h : x = s
      · rw [if_pos h] at hx
        have hx2 : False := by simpa using hx
        exact absurd hx2 (by simp)
      · rw [if_neg h] at hx
        exact List.mem_erase_of_ne h |>.mpr (hcache x hx)
  | uncacheFull s hinc href0 hn =>
    refine ⟨fun x => hocc x, ?_⟩
    intro x hx
    simp only [updF] at hx
    by_cases h : x = s
    · rw [if_pos h] at hx
      have hx2 : False := by simpa using hx
      exact absurd hx2 (by simp)
    · rw [if_neg h] at hx
      exact hcache x hx
  | freeSpanPreserve s n hinc hlinked hn hle =>
    refine ⟨fun x => hocc x, ?_⟩
    intro x hx
    simp only [updF] at hx
    by_cases h : x = s
    · rw [if_pos h] at hx
      have hx2 : (w.spans s).incache = true := hx
      rw [hinc] at hx2
      exact absurd hx2 (by simp)
    · rw [if_neg h] at hx
      exact hcache x hx
  | freeSpanMoveNonempty s n hinc hwasempty hlinked hn hlt =>
    constructor
    · intro x
      have hx := hocc x
      have hs := hocc s
      have hmc : 0 < w.central.nonempty.count s + w.central.empty.count s := by
        rcases hlinked with hl | hl
        · have := List.count_pos_iff.mpr hl
          omega
        · have := List.count_pos_iff.mpr hl
          omega
      simp only [occ3, mSpanList_Remove, mSpanList_Insert, List.count_cons,
        count_erase_nat, List.count_nil, beq_iff_eq] at hx hs ⊢
      by_cases h : x = s
      · subst h
        simp only [eq_self_iff_true, if_true]
        omega
      · simp only [if_neg h, if_neg (Ne.symm h)]
        omega
    · intro x hx
      simp only [updF] at hx
      by_cases h : x = s
      · rw [if_pos h] at hx
        have hx2 : (w.spans s).incache = true := hx
        rw [hinc] at hx2
        exact absurd hx2 (by simp)
      · rw [if_neg h] at hx
        exact List.mem_erase_of_ne h |>.mpr (hcache x hx)
  | freeSpanStay s n hinc hwasempty hn hlt =>
    refine ⟨fun x => hocc x, ?_⟩
    intro x hx
    simp only [updF] at hx
    by_cases h : x = s
    · rw [if_pos h] at hx
      have hx2 : (w.spans s).incache = true := hx
      rw [hinc] at hx2
      exact absurd hx2 (by simp)
    · rw [if_neg h] at hx
      exact hcache x hx
  | freeSpanToHeap s n hinc hlinked hn heq =>
    constructor
    · intro x
      have hx := hocc x
      have hs := hocc s
      have hmc : 0 < w.central.nonempty.count s + w.central.empty.count s := by
        rcases hlinked with hl | hl
        · have := List.count_pos_iff.mpr hl
          omega
        · have := List.count_pos_iff.mpr hl
          omega
      simp only [occ3, mSpanList_Remove, mSpanList_InsertBack, List.count_append,
        count_erase_nat, List.count_cons, List.count_nil, beq_iff_eq] at hx hs ⊢
      by_cases h : x = s
      · subst h
        simp only [eq_self_iff_true, if_true]
        omega
      · simp only [if_neg h, if_neg (Ne.symm h)]
        omega
    · intro x hx
      simp only [updF] at hx
      by_cases h : x = s
      · rw [if_pos h] at hx
        have hx2 : False := by simpa using hx
        exact absurd hx2 (by simp)
      · rw [if_neg h] at hx
        simp only [mSpanList_Remove]
        exact List.mem_erase_of_ne h |>.mpr (hcache x hx)

/-- Witness for span_exclusivity_preserved: growing the central list with a
fresh span from the heap preserves the invariant. -/
theorem span_exclusivity_preserved_witness :
    spanListInv c4GrowWorld ∧
      centralStep c4GrowWorld
        { heap := { c4GrowWorld.heap with free := c4GrowWorld.heap.free.erase 5 }
          central :=
            { nonempty := c4GrowWorld.central.nonempty
              empty := mSpanList_InsertBack c4GrowWorld.central.empty 5 }
          spans := updF c4GrowWorld.spans 5 { c4GrowWorld.spans 5 with
            sweepgen := c4GrowWorld.heap.sweepgen, ref := 0,
            freelistNonempty := true, incache := true } } ∧
      spanListInv
        { heap := { c4GrowWorld.heap with free := c4GrowWorld.heap.free.erase 5 }
          central :=
            { nonempty := c4GrowWorld.central.nonempty
              empty := mSpanList_InsertBack c4GrowWorld.central.empty 5 }
          spans := updF c4GrowWorld.spans 5 { c4GrowWorld.spans 5 with
            sweepgen := c4GrowWorld.heap.sweepgen, ref := 0,
            freelistNonempty := true, incache := true } } := by
  have hinv : spanListInv c4GrowWorld := by
    constructor
    · intro s
      by_cases h : s = 5 <;>
        simp [c4GrowWorld, occ3, h, List.count_cons, List.count_nil]
    · intro s hs
      simp [c4GrowWorld] at hs
  have hstep := centralStep.cacheGrow c4GrowWorld 5 (by decide) (by decide)
  exact ⟨hinv, hstep, span_exclusivity_preserved c4GrowWorld _ hinv hstep⟩

end ReadGo
